import Mathlib

/-!
# Kalenex site scripts

A shallow embedding of `js/i18n.js` (language resolution, translation loading,
DOM substitution, language switcher) and of the theme toggle of `js/main.js`.

Browser objects are modelled by the data the scripts read and write:

* `URLSearchParams` is its list of name/value pairs,
* `localStorage` is a list of key/value pairs,
* `fetch` followed by `res.ok` / `res.json()` is a function from the requested
  URL to the parsed body, `none` standing for every failure that reaches the
  `catch` block; a parsed body is `null` or an object (a body that parses to an
  array or to a primitive is not represented),
* a property read `translations[key]` throws on `null`, and on an object finds
  the own property first and the members inherited from `Object.prototype`
  after it; a property value is given by the string the DOM receives for it,
* `setAttribute` lower-cases the name and throws on a name the host rejects,
* the document is the root element, the other elements that may carry markers
  (in document order), and the two switcher elements `#langMenu` and
  `#langCurrent`, each of which may be missing; an element whose text or markup
  is replaced contains no other of these elements,
* what the host defines and the repository does not (`toUpperCase`, which
  attribute names are valid) is a parameter, `Host`.

A call that can throw returns an `Outcome`: the state it leaves and whether it
returned. Every call of `fetch`, `localStorage.setItem` and
`history.replaceState` is recorded in a trace so that "no request", "no write"
can be stated.
-/

namespace Kalenex

/-! ## JavaScript built-ins -/

/-- Truthiness of a JavaScript string: only the empty string is falsy. -/
def truthy (s : String) : Bool := s != ""

/-- Splitting a character list at every occurrence of a one-character separator. -/
def splitChars (sep : Char) : List Char → List (List Char)
  | [] => [[]]
  | c :: cs =>
    if c = sep then [] :: splitChars sep cs
    else
      match splitChars sep cs with
      | [] => [[c]]
      | p :: ps => (c :: p) :: ps

/-- The method `String.prototype.split` with a one-character separator. -/
def split (sep : Char) (s : String) : List String :=
  (splitChars sep s.data).map String.mk

/-- The method `String.prototype.toLowerCase`, on the ASCII letters. -/
def toLowerCase (s : String) : String := String.mk (s.data.map Char.toLower)

/-- White space and line terminators of ECMAScript, the characters `trim` strips. -/
def isWhiteSpace (c : Char) : Bool :=
  decide (c.toNat ∈ [9, 10, 11, 12, 13, 32, 160, 5760, 8232, 8233, 8239, 8287, 12288, 65279])
    || (decide (8192 ≤ c.toNat) && decide (c.toNat ≤ 8202))

/-- The method `String.prototype.trim`. -/
def trim (s : String) : String :=
  String.mk ((s.data.dropWhile isWhiteSpace).reverse.dropWhile isWhiteSpace).reverse

/-- A list of name/value pairs, the state of a `URLSearchParams` object. -/
abbrev URLSearchParams := List (String × String)

/-- The method `URLSearchParams.get`: value of the first pair with the name, if any. -/
def URLSearchParams.get (params : URLSearchParams) (name : String) : Option String :=
  (params.find? (fun p => p.1 == name)).map (fun p => p.2)

/-- The method `URLSearchParams.delete`: drops every pair with the name. -/
def URLSearchParams.delete (params : URLSearchParams) (name : String) : URLSearchParams :=
  params.filter (fun p => p.1 != name)

/-- The method `URLSearchParams.set`: the first pair with the name takes the value and
the later ones are dropped; without such a pair, one is appended. -/
def URLSearchParams.set : URLSearchParams → String → String → URLSearchParams
  | [], name, value => [(name, value)]
  | (k, x) :: rest, name, value =>
    if k = name then (name, value) :: rest.filter (fun p => p.1 != name)
    else (k, x) :: URLSearchParams.set rest name value

/-- Key/value content of `localStorage`. -/
abbrev Storage := List (String × String)

/-- The method `Storage.getItem`. -/
def getItem (storage : Storage) (key : String) : Option String :=
  (storage.find? (fun p => p.1 == key)).map (fun p => p.2)

/-- The method `Storage.setItem`. -/
def setItem : Storage → String → String → Storage
  | [], key, value => [(key, value)]
  | (k, x) :: rest, key, value =>
    if k = key then (k, value) :: rest else (k, x) :: setItem rest key value

/-- The part of `navigator` the module reads; `languages` is `none` where the
browser does not define it. -/
structure Navigator where
  languages : Option (List String)
  language : String
deriving DecidableEq, Repr

/-! ## i18n.js: configuration -/

/-- An entry of `LANGUAGES`. -/
structure LanguageDescriptor where
  code : String
  label : String
  flag : String
deriving DecidableEq, Repr

def LANGUAGES : List LanguageDescriptor :=
  [ { code := "en", label := "English", flag := "EN" },
    { code := "es", label := "Español", flag := "ES" } ]

def STORAGE_KEY : String := "kalenex-lang"

def DEFAULT_LANG : String := "en"


/-- What the host provides and the scripts call without defining it. -/
structure Host where
  toUpperCase : String → String
  validAttributeName : String → Bool

/-- Result of a call that may throw: the state it leaves and whether it returned. -/
inductive Outcome (σ : Type) where
  | returned (state : σ)
  | threw (state : σ)
deriving DecidableEq, Repr

/-- The state a call leaves, whether it returned or threw. -/
def Outcome.state {σ : Type} : Outcome σ → σ
  | Outcome.returned s => s
  | Outcome.threw s => s

/-- Own properties of a parsed JSON object, in order. A value is `none` for JSON
`null` and otherwise the string the DOM receives for it (the value itself when
it is a JSON string). -/
abbrev TranslationMap := List (String × Option String)

/-- Value of the module variable `translations`: the literal `\x7b\x7d`, or what
`res.json()` gave. -/
inductive Translations where
  | null
  | object (own : TranslationMap)
deriving DecidableEq, Repr

/-- Members every object inherits from `Object.prototype`, each with the string the
DOM receives for it (built-in functions as V8 prints them). -/
def objectPrototype : List (String × String) :=
  [ ("constructor", "function Object() \x7b [native code] \x7d"),
    ("__defineGetter__", "function __defineGetter__() \x7b [native code] \x7d"),
    ("__defineSetter__", "function __defineSetter__() \x7b [native code] \x7d"),
    ("hasOwnProperty", "function hasOwnProperty() \x7b [native code] \x7d"),
    ("__lookupGetter__", "function __lookupGetter__() \x7b [native code] \x7d"),
    ("__lookupSetter__", "function __lookupSetter__() \x7b [native code] \x7d"),
    ("isPrototypeOf", "function isPrototypeOf() \x7b [native code] \x7d"),
    ("propertyIsEnumerable", "function propertyIsEnumerable() \x7b [native code] \x7d"),
    ("toString", "function toString() \x7b [native code] \x7d"),
    ("valueOf", "function valueOf() \x7b [native code] \x7d"),
    ("__proto__", "[object Object]"),
    ("toLocaleString", "function toLocaleString() \x7b [native code] \x7d") ]

/-- The read `translations[key]` on an object, `none` when the result is `null` or
`undefined`: the own property if there is one, else the inherited member. -/
def lookup (own : TranslationMap) (key : String) : Option String :=
  match own.find? (fun p => p.1 == key) with
  | some p => p.2
  | none => (objectPrototype.find? (fun p => p.1 == key)).map (fun p => p.2)

/-! ## i18n.js: language detection -/

def isSupported (code : String) : Bool :=
  LANGUAGES.any (fun l => l.code == code)

/-- The `for` loop of `detectLanguage` over the browser languages, ending in the
final `return DEFAULT_LANG`. -/
def detectBrowserLanguage : List String → String
  | [] => DEFAULT_LANG
  | bl :: rest =>
    let short := toLowerCase ((split '-' bl).headD "")
    if isSupported short then short else detectBrowserLanguage rest

def detectLanguage (search : URLSearchParams) (localStorage : Storage)
    (navigator : Navigator) : String :=
  match (URLSearchParams.get search "lang").filter (fun p => truthy p && isSupported p) with
  | some paramLang => paramLang
  | none =>
    match (getItem localStorage STORAGE_KEY).filter (fun p => truthy p && isSupported p) with
    | some stored => stored
    | none => detectBrowserLanguage (navigator.languages.getD [navigator.language])


/-! ## i18n.js: page state -/

/-- Children of an element, as last written: a single text node (after a write to
`textContent`, and for authored plain text) or parsed markup (after a write to
`innerHTML`, and for authored markup). -/
inductive Content where
  | text (value : String)
  | html (markup : String)
deriving DecidableEq, Repr

/-- An element that may carry translation markers. -/
structure Element where
  attributes : List (String × String)
  content : Content
deriving DecidableEq, Repr

/-- ASCII lower-casing, which the DOM applies to attribute names. -/
def asciiLowercase (s : String) : String := String.mk (s.data.map Char.toLower)

/-- The method `Element.getAttribute` of an HTML element. -/
def getAttribute (el : Element) (name : String) : Option String :=
  (el.attributes.find? (fun p => p.1 == asciiLowercase name)).map (fun p => p.2)

/-- Writing an attribute in an attribute list: the first attribute of that name
takes the value, else one is appended. -/
def setAttr : List (String × String) → String → String → List (String × String)
  | [], name, value => [(name, value)]
  | (k, x) :: rest, name, value =>
    if k = name then (k, value) :: rest else (k, x) :: setAttr rest name value

/-- The method `Element.setAttribute` of an HTML element: `none` when it throws
`InvalidCharacterError`, else the element with the lower-cased name written. -/
def setAttribute (host : Host) (el : Element) (name value : String) : Option Element :=
  if host.validAttributeName name then
    some { el with attributes := setAttr el.attributes (asciiLowercase name) value }
  else none

/-- An `li` of the switcher menu: class, text, `data-lang`, and the code its click
listener hands to `switchTo`. -/
structure MenuItem where
  className : String
  textContent : String
  dataLang : String
  onClick : String
deriving DecidableEq, Repr

/-- The document as the module sees it: `root` is `document.documentElement`,
`elements` the other elements in document order, `langMenu` the children of
`#langMenu` and `langCurrent` the text of `#langCurrent` where they exist. -/
structure Document where
  root : Element
  elements : List Element
  langMenu : Option (List MenuItem)
  langCurrent : Option String
deriving DecidableEq, Repr

/-- Calls that leave the module. -/
inductive Effect where
  | fetch (url : String)
  | setItem (key value : String)
  | replaceState (search : URLSearchParams)
deriving DecidableEq, Repr

/-- Module variables together with the browser state around them. -/
structure Page where
  currentLang : String
  translations : Translations
  search : URLSearchParams
  localStorage : Storage
  navigator : Navigator
  document : Document
  trace : List Effect
deriving DecidableEq, Repr

/-- Outcome of `fetch(url)`, `res.ok` and `res.json()` taken together. -/
abbrev Fetch := String → Option Translations

/-- The template literal of `load`. -/
def resourceUrl (lang : String) : String := "i18n/" ++ lang ++ ".json"

/-! ## i18n.js: load and apply -/

def load (fetch : Fetch) (lang : String) (s : Page) : Page :=
  let s := { s with trace := s.trace ++ [Effect.fetch (resourceUrl lang)] }
  match fetch (resourceUrl lang) with
  | some json => { s with translations := json }
  | none =>
    if lang ≠ DEFAULT_LANG then load fetch DEFAULT_LANG s
    else { s with translations := Translations.object [] }
termination_by (if lang = DEFAULT_LANG then 0 else 1)
decreasing_by simp_all

/-- Callback of the first `forEach` of `apply`, run on an element: `data-i18n` to
`textContent`. The read `translations[key]` throws on `null`. -/
def applyText (translations : Translations) (el : Element) : Outcome Element :=
  match getAttribute el "data-i18n" with
  | none => Outcome.returned el
  | some key =>
    match translations with
    | Translations.null => Outcome.threw el
    | Translations.object own =>
      match lookup own key with
      | some value => Outcome.returned { el with content := Content.text value }
      | none => Outcome.returned el

/-- Callback of the second `forEach` of `apply`: `data-i18n-html` to `innerHTML`. -/
def applyHtml (translations : Translations) (el : Element) : Outcome Element :=
  match getAttribute el "data-i18n-html" with
  | none => Outcome.returned el
  | some key =>
    match translations with
    | Translations.null => Outcome.threw el
    | Translations.object own =>
      match lookup own key with
      | some value => Outcome.returned { el with content := Content.html value }
      | none => Outcome.returned el

/-- Left side of `const [attr, key] = pair.split(':')`. -/
def pairAttr (pair : String) : String := (split ':' pair).headD ""

/-- Right side of `const [attr, key] = pair.split(':')`; a missing second part is
`undefined`, which reads the property named "undefined". -/
def pairKey (pair : String) : String := ((split ':' pair).get? 1).getD "undefined"

/-- Callback of the inner `forEach` of the third pass, for one pair. -/
def applyPair (host : Host) (translations : Translations) (el : Element) (pair : String) :
    Outcome Element :=
  match translations with
  | Translations.null => Outcome.threw el
  | Translations.object own =>
    match lookup own (pairKey pair) with
    | some value =>
      match setAttribute host el (trim (pairAttr pair)) value with
      | some written => Outcome.returned written
      | none => Outcome.threw el
    | none => Outcome.returned el

/-- The inner `forEach` of the third pass over the pairs, left at the first throw. -/
def applyPairs (host : Host) (translations : Translations) :
    List String → Element → Outcome Element
  | [], el => Outcome.returned el
  | pair :: rest, el =>
    match applyPair host translations el pair with
    | Outcome.returned written => applyPairs host translations rest written
    | Outcome.threw written => Outcome.threw written

/-- Callback of the third `forEach` of `apply`: `data-i18n-attr` to attributes. -/
def applyAttr (host : Host) (translations : Translations) (el : Element) : Outcome Element :=
  match getAttribute el "data-i18n-attr" with
  | none => Outcome.returned el
  | some marker => applyPairs host translations (split ';' marker) el

/-- A `forEach` over elements in order, left at the first throw. -/
def forEachElement (f : Element → Outcome Element) : List Element → Outcome (List Element)
  | [] => Outcome.returned []
  | el :: rest =>
    match f el with
    | Outcome.threw written => Outcome.threw (written :: rest)
    | Outcome.returned written =>
      match forEachElement f rest with
      | Outcome.returned done => Outcome.returned (written :: done)
      | Outcome.threw done => Outcome.threw (written :: done)

/-- One `querySelectorAll(...).forEach(...)` of `apply`: the root first, then the
other elements in document order. -/
def forEachInDocument (f : Element → Outcome Element) (d : Document) : Outcome Document :=
  match f d.root with
  | Outcome.threw written => Outcome.threw { d with root := written }
  | Outcome.returned written =>
    match forEachElement f d.elements with
    | Outcome.returned done => Outcome.returned { d with root := written, elements := done }
    | Outcome.threw done => Outcome.threw { d with root := written, elements := done }

def apply (host : Host) (s : Page) : Outcome Page :=
  match forEachInDocument (applyText s.translations) s.document with
  | Outcome.threw d => Outcome.threw { s with document := d }
  | Outcome.returned d1 =>
    match forEachInDocument (applyHtml s.translations) d1 with
    | Outcome.threw d => Outcome.threw { s with document := d }
    | Outcome.returned d2 =>
      match forEachInDocument (applyAttr host s.translations) d2 with
      | Outcome.threw d => Outcome.threw { s with document := d }
      | Outcome.returned d3 =>
        Outcome.returned { s with
          document := { d3 with
            root := { d3.root with
              attributes := setAttr d3.root.attributes "lang" s.currentLang } } }

/-! ## i18n.js: switcher, switchTo, init -/

def buildSwitcher (host : Host) (s : Page) : Page :=
  match s.document.langMenu, s.document.langCurrent with
  | some _, some _ =>
    let active := LANGUAGES.find? (fun l => l.code == s.currentLang)
    let label :=
      match active with
      | some a => a.flag
      | none => host.toUpperCase s.currentLang
    let items := LANGUAGES.map (fun lang =>
      { className := "lang-switcher__item" ++
          (if lang.code = s.currentLang then " lang-switcher__item--active" else ""),
        textContent := lang.label,
        dataLang := lang.code,
        onClick := lang.code : MenuItem })
    { s with document := { s.document with langCurrent := some label, langMenu := some items } }
  | _, _ => s

/-- The two statements `apply(); buildSwitcher();` that end both `switchTo` and
`init`: when `apply` throws, the caller is left with the state reached and
`buildSwitcher` does not run. -/
def applyAndBuild (host : Host) (s : Page) : Outcome Page :=
  match apply host s with
  | Outcome.returned s => Outcome.returned (buildSwitcher host s)
  | Outcome.threw s => Outcome.threw s


def switchTo (host : Host) (fetch : Fetch) (lang : String) (s : Page) : Outcome Page :=
  if lang = s.currentLang then Outcome.returned s
  else
    let s := { s with currentLang := lang }
    let s := { s with
      localStorage := setItem s.localStorage STORAGE_KEY lang,
      trace := s.trace ++ [Effect.setItem STORAGE_KEY lang] }
    let url :=
      if lang = DEFAULT_LANG then URLSearchParams.delete s.search "lang"
      else URLSearchParams.set s.search "lang" lang
    let s := { s with search := url, trace := s.trace ++ [Effect.replaceState url] }
    applyAndBuild host (load fetch lang s)

/-- The state changes of `init`; the listeners it adds afterwards only toggle the
`open` class of the dropdown. -/
def init (host : Host) (fetch : Fetch) (s : Page) : Outcome Page :=
  let s := { s with currentLang := detectLanguage s.search s.localStorage s.navigator }
  applyAndBuild host (load fetch s.currentLang s)

/-- A sequence of public `switchTo` calls, each with its own network outcome and
each starting from the state the one before left. -/
def switchAll (host : Host) (calls : List (Fetch × String)) (s : Page) : Page :=
  calls.foldl (fun s call => (switchTo host call.1 call.2 s).state) s

/-- An `li` is marked selected when its class list has the active class. -/
def selected (item : MenuItem) : Bool :=
  (split ' ' item.className).contains "lang-switcher__item--active"

/-- Codes (`data-lang`) of the menu entries marked selected; empty without a menu. -/
def selectedCodes (s : Page) : List String :=
  match s.document.langMenu with
  | some items => (items.filter selected).map (fun item => item.dataLang)
  | none => []

/-- The menu entries `buildSwitcher` renders for an active language. -/
def renderedItems (currentLang : String) : List MenuItem :=
  LANGUAGES.map (fun lang =>
    { className := "lang-switcher__item" ++
        (if lang.code = currentLang then " lang-switcher__item--active" else ""),
      textContent := lang.label,
      dataLang := lang.code,
      onClick := lang.code })

/-! ## main.js: theme toggle -/

def THEME_KEY : String := "kalenex-theme"

/-- The state the theme code reads and writes: the `data-theme` attribute of the
root element and `localStorage`. -/
structure ThemePage where
  dataTheme : Option String
  localStorage : Storage
deriving DecidableEq, Repr

/-- The function `getPreferredTheme`; `prefersDark` is
`matchMedia('(prefers-color-scheme: dark)').matches`. -/
def getPreferredTheme (localStorage : Storage) (prefersDark : Bool) : String :=
  match (getItem localStorage THEME_KEY).filter truthy with
  | some stored => stored
  | none => if prefersDark then "dark" else "light"

def applyTheme (theme : String) (s : ThemePage) : ThemePage :=
  { dataTheme := some theme, localStorage := setItem s.localStorage THEME_KEY theme }

/-- The top-level call `applyTheme(getPreferredTheme())`, run when the script loads. -/
def startTheme (prefersDark : Bool) (s : ThemePage) : ThemePage :=
  applyTheme (getPreferredTheme s.localStorage prefersDark) s

/-- Click listener of `#themeToggle`. -/
def onThemeToggle (s : ThemePage) : ThemePage :=
  applyTheme (if s.dataTheme = some "dark" then "light" else "dark") s

/-- The `change` listener of the `prefers-color-scheme` media query; `isDark` is
`e.matches`. -/
def onSchemeChange (isDark : Bool) (s : ThemePage) : ThemePage :=
  if ((getItem s.localStorage THEME_KEY).filter truthy).isNone then
    applyTheme (if isDark then "dark" else "light") s
  else s


/-! ## Sample inputs -/

/-- A host that upper-cases the ASCII letters and accepts the attribute names made
of ASCII letters, digits and hyphens. -/
def sampleHost : Host :=
  { toUpperCase := fun s => String.mk (s.data.map Char.toUpper),
    validAttributeName := fun name =>
      !name.data.isEmpty && name.data.all (fun c => c.isAlphanum || c == '-') }

/-- A network on which only the default resource exists. -/
def onlyDefault : Fetch := fun url =>
  if url = "i18n/en.json" then some (Translations.object [("hero.title", some "Welcome")])
  else none

/-- A network with the English and the Spanish resource. -/
def bothResources : Fetch := fun url =>
  if url = "i18n/en.json" then some (Translations.object [("nav.home", some "Home")])
  else if url = "i18n/es.json" then some (Translations.object [("nav.home", some "Inicio")])
  else none

/-- A freshly loaded page: Spanish browser, nothing stored, one unrelated query
parameter, one marked heading, an empty switcher. -/
def freshPage : Page :=
  { currentLang := DEFAULT_LANG,
    translations := Translations.object [],
    search := [("ref", "mail")],
    localStorage := [],
    navigator := { languages := some ["es-ES", "en"], language := "es-ES" },
    document :=
      { root := { attributes := [("lang", "en")], content := Content.html "" },
        elements := [{ attributes := [("data-i18n", "hero.title")], content := Content.text "Hi" }],
        langMenu := some [],
        langCurrent := some "" },
    trace := [] }

/-- An English page whose menu was authored with the English entry selected and
which has no `#langCurrent` element. -/
def staleMenuPage : Page :=
  { freshPage with
    document := { freshPage.document with
      langMenu := some [{ className := "lang-switcher__item lang-switcher__item--active",
                          textContent := "English", dataLang := "en", onClick := "en" }],
      langCurrent := none } }

/-- An English page with a link whose attribute marker names `my title`. -/
def badNamePage : Page :=
  { freshPage with
    document := { freshPage.document with
      elements := [{ attributes := [("data-i18n-attr", "my title:nav.home")],
                     content := Content.text "Start" }] } }

/-- A page with the empty map and a paragraph whose text marker is `constructor`. -/
def inheritedKeyPage : Page :=
  { freshPage with
    document := { freshPage.document with
      elements := [{ attributes := [("data-i18n", "constructor")],
                     content := Content.text "Keep me" }] } }

/-! ## Resolution precedence as the specification words it -/

/-- Codes of the configured languages. -/
def configuredCodes : List String := LANGUAGES.map (fun l => l.code)

/-- Lower-cased primary subtag of a language tag: the text before the first `-`. -/
def primarySubtag (tag : String) : String :=
  toLowerCase (String.mk (tag.data.takeWhile (fun c => c ≠ '-')))

/-- First match wins: the `lang` query parameter, the stored preference, the first
user-agent tag whose primary subtag is configured, the default `en`. -/
def resolveLanguage (paramLang stored : Option String) (tags : List String) : String :=
  match paramLang.filter (fun c => decide (c ∈ configuredCodes)) with
  | some c => c
  | none =>
    match stored.filter (fun c => decide (c ∈ configuredCodes)) with
    | some c => c
    | none =>
      match (tags.map primarySubtag).find? (fun c => decide (c ∈ configuredCodes)) with
      | some c => c
      | none => "en"

/-! ## Lemmas on the built-ins -/

theorem splitChars_ne_nil (sep : Char) (cs : List Char) : splitChars sep cs ≠ [] := by
  induction cs with
  | nil => simp [splitChars]
  | cons c cs ih =>
    unfold splitChars
    split
    · simp
    · split <;> simp

theorem splitChars_head (sep : Char) (cs : List Char) :
    (splitChars sep cs).headD [] = cs.takeWhile (fun c => c ≠ sep) := by
  induction cs with
  | nil => simp [splitChars]
  | cons c cs ih =>
    unfold splitChars
    by_cases hc : c = sep
    · simp [hc]
    · simp only [hc, if_false]
      cases hs : splitChars sep cs with
      | nil => exact absurd hs (splitChars_ne_nil sep cs)
      | cons p ps =>
        rw [hs] at ih
        simp at ih
        simp [hc, ih]

theorem split_head (sep : Char) (s : String) :
    (split sep s).headD "" = String.mk (s.data.takeWhile (fun c => c ≠ sep)) := by
  unfold split
  have h := splitChars_head sep s.data
  cases hs : splitChars sep s.data with
  | nil => exact absurd hs (splitChars_ne_nil sep s.data)
  | cons p ps =>
    rw [hs] at h
    simp at h
    simp [h]

theorem isSupported_iff (code : String) : isSupported code = decide (code ∈ configuredCodes) := by
  rw [Bool.eq_iff_iff]
  simp only [isSupported, configuredCodes, LANGUAGES, List.any_cons, List.any_nil,
    List.map_cons, List.map_nil, Bool.or_false, Bool.or_eq_true, beq_iff_eq,
    decide_eq_true_eq, List.mem_cons, List.mem_nil_iff, or_false]
  constructor
  · rintro (h | h)
    · exact Or.inl h.symm
    · exact Or.inr h.symm
  · rintro (h | h)
    · exact Or.inl h.symm
    · exact Or.inr h.symm

theorem truthy_and_isSupported (p : String) : (truthy p && isSupported p) = isSupported p := by
  by_cases h : p = ""
  · subst h; decide
  · simp [truthy, h]

theorem short_eq_primarySubtag (bl : String) :
    toLowerCase ((split '-' bl).headD "") = primarySubtag bl := by
  rw [split_head]; rfl

theorem detectBrowserLanguage_eq (tags : List String) :
    detectBrowserLanguage tags =
      match (tags.map primarySubtag).find? (fun c => decide (c ∈ configuredCodes)) with
      | some c => c
      | none => "en" := by
  induction tags with
  | nil => rfl
  | cons bl rest ih =>
    rw [detectBrowserLanguage, short_eq_primarySubtag, List.map_cons, List.find?_cons,
      isSupported_iff]
    by_cases h : primarySubtag bl ∈ configuredCodes
    · rw [decide_eq_true h]; rfl
    · rw [decide_eq_false h]; exact ih

/-! ## Language detection -/

theorem detectLanguage_eq_resolveLanguage (search : URLSearchParams) (localStorage : Storage)
    (navigator : Navigator) :
    detectLanguage search localStorage navigator =
      resolveLanguage (URLSearchParams.get search "lang") (getItem localStorage STORAGE_KEY)
        (navigator.languages.getD [navigator.language]) := by
  unfold detectLanguage resolveLanguage
  simp only [truthy_and_isSupported]
  simp only [isSupported_iff, detectBrowserLanguage_eq]

theorem detectLanguage_mem (search : URLSearchParams) (localStorage : Storage)
    (navigator : Navigator) :
    detectLanguage search localStorage navigator ∈ LANGUAGES.map (fun l => l.code) := by
  rw [detectLanguage_eq_resolveLanguage]
  unfold resolveLanguage
  have key : ∀ (o : Option String) (c : String),
      o.filter (fun c => decide (c ∈ configuredCodes)) = some c → c ∈ configuredCodes := by
    intro o c h
    cases o with
    | none => simp at h
    | some v =>
      simp [Option.filter] at h
      obtain ⟨h1, h2⟩ := h
      exact h2 ▸ h1
  split
  · exact key _ _ (by assumption)
  · split
    · exact key _ _ (by assumption)
    · split
      · rename_i c h
        have := List.find?_some h
        simpa [configuredCodes] using this
      · decide

/-- C1. Whatever the query string, the stored preference and the user-agent tags,
`detectLanguage` returns the first match among: the `lang` query parameter when
configured, the stored preference when configured, the lower-cased primary
subtag of the first user-agent tag for which that subtag is configured, and `en`. -/
theorem detectLanguage_precedence (search : URLSearchParams) (localStorage : Storage)
    (navigator : Navigator) :
    detectLanguage search localStorage navigator =
      resolveLanguage (URLSearchParams.get search "lang") (getItem localStorage STORAGE_KEY)
        (navigator.languages.getD [navigator.language]) :=
  detectLanguage_eq_resolveLanguage search localStorage navigator

/-- C2. The code returned by `detectLanguage` is always the code of an entry of
`LANGUAGES`, whatever the query parameter, the stored value and the user-agent
tags are. -/
theorem detectLanguage_configured (search : URLSearchParams) (localStorage : Storage)
    (navigator : Navigator) :
    detectLanguage search localStorage navigator ∈ LANGUAGES.map (fun l => l.code) :=
  detectLanguage_mem search localStorage navigator


/-! ## Loading -/

theorem load_default (fetch : Fetch) (s : Page) :
    load fetch DEFAULT_LANG s =
      match fetch (resourceUrl DEFAULT_LANG) with
      | some json =>
        { s with trace := s.trace ++ [Effect.fetch (resourceUrl DEFAULT_LANG)], translations := json }
      | none =>
        { s with trace := s.trace ++ [Effect.fetch (resourceUrl DEFAULT_LANG)], translations := Translations.object [] } := by
  rw [load]
  cases fetch (resourceUrl DEFAULT_LANG) <;> simp

theorem load_other (fetch : Fetch) (lang : String) (s : Page) (h : lang ≠ DEFAULT_LANG) :
    load fetch lang s =
      match fetch (resourceUrl lang) with
      | some json =>
        { s with trace := s.trace ++ [Effect.fetch (resourceUrl lang)], translations := json }
      | none =>
        load fetch DEFAULT_LANG { s with trace := s.trace ++ [Effect.fetch (resourceUrl lang)] } := by
  rw [load]
  cases fetch (resourceUrl lang) <;> simp [h]

/-- The two levels of `load` written out. -/
theorem load_unfold (fetch : Fetch) (lang : String) (s : Page) :
    load fetch lang s =
      match fetch (resourceUrl lang) with
      | some json =>
        { s with trace := s.trace ++ [Effect.fetch (resourceUrl lang)], translations := json }
      | none =>
        if lang ≠ DEFAULT_LANG then
          match fetch (resourceUrl DEFAULT_LANG) with
          | some json =>
            { s with
              trace := s.trace ++ [Effect.fetch (resourceUrl lang)] ++
                [Effect.fetch (resourceUrl DEFAULT_LANG)],
              translations := json }
          | none =>
            { s with
              trace := s.trace ++ [Effect.fetch (resourceUrl lang)] ++
                [Effect.fetch (resourceUrl DEFAULT_LANG)],
              translations := Translations.object [] }
        else
          { s with trace := s.trace ++ [Effect.fetch (resourceUrl lang)], translations := Translations.object [] } := by
  by_cases h : lang = DEFAULT_LANG
  · subst h
    rw [load_default]
    cases fetch (resourceUrl DEFAULT_LANG) <;> simp
  · rw [load_other fetch lang s h]
    cases fetch (resourceUrl lang) with
    | some json => rfl
    | none =>
      rw [load_default]
      cases fetch (resourceUrl DEFAULT_LANG) <;> simp [h]

theorem resourceUrl_injective (a b : String) (h : resourceUrl a = resourceUrl b) : a = b := by
  unfold resourceUrl at h
  have h2 := congrArg String.data h
  simp only [String.data_append] at h2
  have h3 := List.append_cancel_right h2
  have h4 := List.append_cancel_left h3
  exact String.ext h4

theorem load_currentLang (fetch : Fetch) (lang : String) (s : Page) :
    (load fetch lang s).currentLang = s.currentLang := by
  by_cases h : lang = DEFAULT_LANG
  · subst h
    rw [load_default]
    cases fetch (resourceUrl DEFAULT_LANG) <;> rfl
  · rw [load_other fetch lang s h]
    cases fetch (resourceUrl lang) with
    | some json => rfl
    | none =>
      simp only [load_default]
      cases fetch (resourceUrl DEFAULT_LANG) <;> rfl

theorem load_frame (fetch : Fetch) (lang : String) (s : Page) :
    (load fetch lang s).search = s.search ∧ (load fetch lang s).localStorage = s.localStorage ∧
      (load fetch lang s).document = s.document ∧ (load fetch lang s).navigator = s.navigator := by
  rw [load_unfold]
  cases fetch (resourceUrl lang) with
  | some json => exact ⟨rfl, rfl, rfl, rfl⟩
  | none =>
    by_cases h : lang = DEFAULT_LANG
    · simp [h]
    · cases fetch (resourceUrl DEFAULT_LANG) <;> simp [h]

theorem load_trace (fetch : Fetch) (lang : String) (s : Page) :
    ∃ urls : List String, (load fetch lang s).trace = s.trace ++ urls.map Effect.fetch := by
  rw [load_unfold]
  cases fetch (resourceUrl lang) with
  | some json => exact ⟨[resourceUrl lang], rfl⟩
  | none =>
    by_cases h : lang = DEFAULT_LANG
    · exact ⟨[resourceUrl lang], by simp [h]⟩
    · cases fetch (resourceUrl DEFAULT_LANG) <;>
        exact ⟨[resourceUrl lang, resourceUrl DEFAULT_LANG], by simp [h]⟩

theorem getItem_setItem (storage : Storage) (key value : String) :
    getItem (setItem storage key value) key = some value := by
  induction storage with
  | nil => simp [setItem, getItem]
  | cons p rest ih =>
    obtain ⟨k, x⟩ := p
    unfold setItem
    by_cases h : k = key
    · simp [h, getItem]
    · simp only [h, if_false]
      unfold getItem at ih ⊢
      simpa [List.find?_cons, h] using ih

theorem get_set (params : URLSearchParams) (name value : String) :
    URLSearchParams.get (URLSearchParams.set params name value) name = some value := by
  induction params with
  | nil => simp [URLSearchParams.set, URLSearchParams.get]
  | cons p rest ih =>
    obtain ⟨k, x⟩ := p
    unfold URLSearchParams.set
    by_cases h : k = name
    · simp [h, URLSearchParams.get]
    · simp only [h, if_false]
      unfold URLSearchParams.get at ih ⊢
      simpa [List.find?_cons, h] using ih

theorem others_set (params : URLSearchParams) (name value : String) :
    (URLSearchParams.set params name value).filter (fun p => p.1 != name) =
      params.filter (fun p => p.1 != name) := by
  induction params with
  | nil => simp [URLSearchParams.set]
  | cons p rest ih =>
    obtain ⟨k, x⟩ := p
    unfold URLSearchParams.set
    by_cases h : k = name
    · simp [h, List.filter_cons]
    · simp [h, List.filter_cons, ih]

theorem others_delete (params : URLSearchParams) (name : String) :
    (URLSearchParams.delete params name).filter (fun p => p.1 != name) =
      params.filter (fun p => p.1 != name) := by
  simp [URLSearchParams.delete]

theorem get_delete (params : URLSearchParams) (name : String) :
    URLSearchParams.get (URLSearchParams.delete params name) name = none ∧
      ∀ p ∈ URLSearchParams.delete params name, p.1 ≠ name := by
  constructor
  · simp [URLSearchParams.get, URLSearchParams.delete]
  · intro p hp
    simp [URLSearchParams.delete] at hp
    exact hp.2

theorem selected_rendered (c : String) (hc : c ∈ LANGUAGES.map (fun l => l.code)) :
    ((renderedItems c).filter selected).map (fun item => item.dataLang) = [c] := by
  simp [LANGUAGES] at hc
  rcases hc with rfl | rfl <;> decide

/-! ## Frame lemmas for `apply` and `buildSwitcher` -/

theorem forEachInDocument_switcher (f : Element → Outcome Element) (d : Document) :
    (forEachInDocument f d).state.langMenu = d.langMenu ∧
      (forEachInDocument f d).state.langCurrent = d.langCurrent := by
  unfold forEachInDocument
  split
  · exact ⟨rfl, rfl⟩
  · split <;> exact ⟨rfl, rfl⟩

theorem apply_frame (host : Host) (s : Page) :
    (apply host s).state.currentLang = s.currentLang ∧
      (apply host s).state.translations = s.translations ∧
      (apply host s).state.search = s.search ∧
      (apply host s).state.localStorage = s.localStorage ∧
      (apply host s).state.navigator = s.navigator ∧
      (apply host s).state.trace = s.trace ∧
      (apply host s).state.document.langMenu = s.document.langMenu ∧
      (apply host s).state.document.langCurrent = s.document.langCurrent := by
  have h1 := forEachInDocument_switcher (applyText s.translations) s.document
  unfold apply
  split
  · next d e1 =>
    rw [e1] at h1
    exact ⟨rfl, rfl, rfl, rfl, rfl, rfl, h1.1, h1.2⟩
  · next d1 e1 =>
    rw [e1] at h1
    have h2 := forEachInDocument_switcher (applyHtml s.translations) d1
    split
    · next d e2 =>
      rw [e2] at h2
      exact ⟨rfl, rfl, rfl, rfl, rfl, rfl, h2.1.trans h1.1, h2.2.trans h1.2⟩
    · next d2 e2 =>
      rw [e2] at h2
      have h3 := forEachInDocument_switcher (applyAttr host s.translations) d2
      split
      · next d e3 =>
        rw [e3] at h3
        exact ⟨rfl, rfl, rfl, rfl, rfl, rfl, h3.1.trans (h2.1.trans h1.1),
          h3.2.trans (h2.2.trans h1.2)⟩
      · next d3 e3 =>
        rw [e3] at h3
        exact ⟨rfl, rfl, rfl, rfl, rfl, rfl, h3.1.trans (h2.1.trans h1.1),
          h3.2.trans (h2.2.trans h1.2)⟩

theorem find_setAttr (attrs : List (String × String)) (name value : String) :
    ((setAttr attrs name value).find? (fun p => p.1 == name)).map (fun p => p.2) = some value := by
  induction attrs with
  | nil => simp [setAttr]
  | cons p rest ih =>
    obtain ⟨k, x⟩ := p
    unfold setAttr
    by_cases h : k = name
    · simp [h]
    · simp only [h, if_false]
      simpa [List.find?_cons, h] using ih

theorem apply_lang (host : Host) (s t : Page) (h : apply host s = Outcome.returned t) :
    getAttribute t.document.root "lang" = some s.currentLang := by
  unfold apply at h
  split at h
  · exact Outcome.noConfusion h
  · split at h
    · exact Outcome.noConfusion h
    · split at h
      · exact Outcome.noConfusion h
      · injection h with h
        rw [← h]
        exact find_setAttr _ "lang" s.currentLang

theorem buildSwitcher_frame (host : Host) (s : Page) :
    (buildSwitcher host s).currentLang = s.currentLang ∧
      (buildSwitcher host s).translations = s.translations ∧
      (buildSwitcher host s).search = s.search ∧
      (buildSwitcher host s).localStorage = s.localStorage ∧
      (buildSwitcher host s).trace = s.trace ∧
      (buildSwitcher host s).document.root = s.document.root ∧
      (buildSwitcher host s).document.elements = s.document.elements := by
  unfold buildSwitcher
  split <;> exact ⟨rfl, rfl, rfl, rfl, rfl, rfl, rfl⟩

theorem buildSwitcher_present (host : Host) (s : Page) (menu : List MenuItem) (label : String)
    (hm : s.document.langMenu = some menu) (hl : s.document.langCurrent = some label) :
    (buildSwitcher host s).document.langMenu = some (renderedItems s.currentLang) ∧
      (buildSwitcher host s).document.langCurrent =
        some (match LANGUAGES.find? (fun l => l.code == s.currentLang) with
              | some a => a.flag
              | none => host.toUpperCase s.currentLang) := by
  unfold buildSwitcher
  rw [hm, hl]
  exact ⟨rfl, rfl⟩

theorem applyAndBuild_frame (host : Host) (s : Page) :
    (applyAndBuild host s).state.currentLang = s.currentLang ∧
      (applyAndBuild host s).state.translations = s.translations ∧
      (applyAndBuild host s).state.search = s.search ∧
      (applyAndBuild host s).state.localStorage = s.localStorage ∧
      (applyAndBuild host s).state.trace = s.trace := by
  obtain ⟨a1, a2, a3, a4, _, a6, _, _⟩ := apply_frame host s
  unfold applyAndBuild
  cases e : apply host s with
  | threw t =>
    rw [e] at a1 a2 a3 a4 a6
    exact ⟨a1, a2, a3, a4, a6⟩
  | returned t =>
    rw [e] at a1 a2 a3 a4 a6
    obtain ⟨b1, b2, b3, b4, b5, _, _⟩ := buildSwitcher_frame host t
    exact ⟨b1.trans a1, b2.trans a2, b3.trans a3, b4.trans a4, b5.trans a6⟩

theorem applyAndBuild_returned (host : Host) (s t : Page)
    (h : applyAndBuild host s = Outcome.returned t) :
    getAttribute t.document.root "lang" = some s.currentLang ∧
      ∀ (menu : List MenuItem) (label : String),
        s.document.langMenu = some menu → s.document.langCurrent = some label →
          t.document.langMenu = some (renderedItems s.currentLang) ∧
          t.document.langCurrent =
            some (match LANGUAGES.find? (fun l => l.code == s.currentLang) with
                  | some a => a.flag
                  | none => host.toUpperCase s.currentLang) := by
  obtain ⟨a1, _, _, _, _, _, a7, a8⟩ := apply_frame host s
  unfold applyAndBuild at h
  cases e : apply host s with
  | threw u =>
    rw [e] at h
    exact Outcome.noConfusion h
  | returned u =>
    rw [e] at h a1 a7 a8
    injection h with h
    subst h
    refine ⟨?_, ?_⟩
    · rw [(buildSwitcher_frame host u).2.2.2.2.2.1]
      exact apply_lang host s u e
    · intro menu label hm hl
      have r := buildSwitcher_present host u menu label (a7.trans hm) (a8.trans hl)
      have c : u.currentLang = s.currentLang := a1
      rw [c] at r
      exact r

/-- C4. The function `load` always returns. It requests the resource of `lang`
first and, only when that fails and `lang` is not the default, the default
resource once; the map it leaves is the first of these that loaded, else the
empty map. At most two requests are made, at most one of them for the default
resource, and nothing but the map and the trace changes. -/
theorem load_fallback (fetch : Fetch) (lang : String) (s : Page) :
    (load fetch lang s).translations =
        (match fetch (resourceUrl lang) with
         | some json => json
         | none =>
           if lang ≠ DEFAULT_LANG then
             match fetch (resourceUrl DEFAULT_LANG) with
             | some json => json
             | none => Translations.object []
           else Translations.object []) ∧
      (∃ urls : List String,
        (load fetch lang s).trace = s.trace ++ urls.map Effect.fetch ∧
        (urls = [resourceUrl lang] ∨
          (fetch (resourceUrl lang) = none ∧ lang ≠ DEFAULT_LANG ∧
            urls = [resourceUrl lang, resourceUrl DEFAULT_LANG])) ∧
        urls.length ≤ 2 ∧ urls.count (resourceUrl DEFAULT_LANG) ≤ 1) ∧
      load fetch lang s =
        { s with translations := (load fetch lang s).translations,
                 trace := (load fetch lang s).trace } := by
  by_cases h : lang = DEFAULT_LANG
  · subst h
    rw [load_default]
    cases hf : fetch (resourceUrl DEFAULT_LANG) with
    | some json =>
      refine ⟨by simp, ⟨[resourceUrl DEFAULT_LANG], by simp, Or.inl rfl, by simp, by simp⟩, rfl⟩
    | none =>
      refine ⟨by simp, ⟨[resourceUrl DEFAULT_LANG], by simp, Or.inl rfl, by simp, by simp⟩, rfl⟩
  · have hne : resourceUrl lang ≠ resourceUrl DEFAULT_LANG :=
      fun e => h (resourceUrl_injective _ _ e)
    rw [load_other fetch lang s h]
    cases hf : fetch (resourceUrl lang) with
    | some json =>
      refine ⟨by simp, ⟨[resourceUrl lang], by simp, Or.inl rfl, by simp, ?_⟩, rfl⟩
      simp [List.count_cons, hne]
    | none =>
      rw [load_default]
      cases hd : fetch (resourceUrl DEFAULT_LANG) with
      | some json =>
        refine ⟨by simp [h], ⟨[resourceUrl lang, resourceUrl DEFAULT_LANG], by simp,
          Or.inr ⟨rfl, h, rfl⟩, by simp, ?_⟩, rfl⟩
        simp [List.count_cons, hne]
      | none =>
        refine ⟨by simp [h], ⟨[resourceUrl lang, resourceUrl DEFAULT_LANG], by simp,
          Or.inr ⟨rfl, h, rfl⟩, by simp, ?_⟩, rfl⟩
        simp [List.count_cons, hne]


/-! ## The active language over a session -/

theorem init_currentLang (host : Host) (fetch : Fetch) (s : Page) :
    (init host fetch s).state.currentLang = detectLanguage s.search s.localStorage s.navigator := by
  unfold init
  simp only []
  rw [(applyAndBuild_frame host _).1, load_currentLang]

theorem switchTo_currentLang (host : Host) (fetch : Fetch) (lang : String) (s : Page) :
    (switchTo host fetch lang s).state.currentLang = lang := by
  unfold switchTo
  split
  · next h => exact h.symm
  · simp only []
    rw [(applyAndBuild_frame host _).1, load_currentLang]

/-- C3, as stated, fails: `switchTo` does not check its argument, so the public call
`switchTo("xx")` after `init` leaves `currentLang` at `xx`, which is not configured. -/
theorem switchTo_unconfigured_counterexample :
    (switchAll sampleHost [(onlyDefault, "xx")]
        (init sampleHost onlyDefault freshPage).state).currentLang = "xx" ∧
      "xx" ∉ LANGUAGES.map (fun l => l.code) :=
  ⟨switchTo_currentLang sampleHost onlyDefault "xx" (init sampleHost onlyDefault freshPage).state,
    by decide⟩

theorem switchAll_currentLang (host : Host) (calls : List (Fetch × String)) (s : Page)
    (hs : s.currentLang ∈ LANGUAGES.map (fun l => l.code))
    (h : ∀ call ∈ calls, call.2 ∈ LANGUAGES.map (fun l => l.code)) :
    (switchAll host calls s).currentLang ∈ LANGUAGES.map (fun l => l.code) := by
  induction calls generalizing s with
  | nil => exact hs
  | cons call rest ih =>
    simp only [switchAll, List.foldl_cons]
    apply ih
    · rw [switchTo_currentLang]
      exact h call (List.mem_cons_self _ _)
    · intro c hc
      exact h c (List.mem_cons_of_mem _ hc)

/-- C3, amended. After `init` and any sequence of `switchTo` calls whose arguments
are configured codes, `currentLang` is a configured code, whether or not the
calls returned. -/
theorem currentLang_configured (host : Host) (fetch : Fetch) (s : Page)
    (calls : List (Fetch × String))
    (h : ∀ call ∈ calls, call.2 ∈ LANGUAGES.map (fun l => l.code)) :
    (switchAll host calls (init host fetch s).state).currentLang
      ∈ LANGUAGES.map (fun l => l.code) := by
  apply switchAll_currentLang _ _ _ _ h
  rw [init_currentLang]
  exact detectLanguage_mem _ _ _

/-- Two configured switches after `init` on the fresh page. -/
theorem currentLang_configured_witness :
    (switchAll sampleHost [(onlyDefault, "es"), (onlyDefault, "en")]
        (init sampleHost onlyDefault freshPage).state).currentLang
      ∈ LANGUAGES.map (fun l => l.code) :=
  currentLang_configured sampleHost onlyDefault freshPage
    [(onlyDefault, "es"), (onlyDefault, "en")] (by decide)

/-! ## Switching to the active language -/

/-- C6. Calling `switchTo` with the active language returns with the state as it
was: same address, same store, same map, same document, and nothing added to
the trace of requests, store writes and history calls. -/
theorem switchTo_same (host : Host) (fetch : Fetch) (s : Page) :
    switchTo host fetch s.currentLang s = Outcome.returned s := by
  simp [switchTo]

/-! ## Switching to another language -/

theorem applyAndBuild_localStorage (host : Host) (fetch : Fetch) (lang : String) (s : Page) :
    (applyAndBuild host (load fetch lang s)).state.localStorage = s.localStorage := by
  rw [(applyAndBuild_frame host _).2.2.2.1]
  exact (load_frame fetch lang s).2.1

theorem applyAndBuild_search (host : Host) (fetch : Fetch) (lang : String) (s : Page) :
    (applyAndBuild host (load fetch lang s)).state.search = s.search := by
  rw [(applyAndBuild_frame host _).2.2.1]
  exact (load_frame fetch lang s).1

theorem applyAndBuild_trace (host : Host) (fetch : Fetch) (lang : String) (s : Page) :
    ∃ urls : List String,
      (applyAndBuild host (load fetch lang s)).state.trace = s.trace ++ urls.map Effect.fetch := by
  rw [(applyAndBuild_frame host _).2.2.2.2]
  exact load_trace fetch lang s

theorem applyAndBuild_switched (host : Host) (fetch : Fetch) (lang : String) (s t : Page)
    (h : applyAndBuild host (load fetch lang s) = Outcome.returned t) :
    getAttribute t.document.root "lang" = some s.currentLang ∧
      ∀ (menu : List MenuItem) (label : String),
        s.document.langMenu = some menu → s.document.langCurrent = some label →
          selectedCodes t =
            ((renderedItems s.currentLang).filter selected).map (fun item => item.dataLang) := by
  obtain ⟨r1, r2⟩ := applyAndBuild_returned host _ t h
  have hd := (load_frame fetch lang s).2.2.1
  rw [load_currentLang] at r1
  refine ⟨r1, ?_⟩
  intro menu label hm hl
  have r := (r2 menu label (by rw [hd]; exact hm) (by rw [hd]; exact hl)).1
  rw [load_currentLang] at r
  unfold selectedCodes
  rw [r]

/-- C7, as stated, fails in two ways. On `staleMenuPage`, which has no
`#langCurrent`, `switchTo("es")` returns with the authored menu untouched, so
the entry marked selected is still `en`. On `badNamePage`, whose attribute
marker names `my title`, `apply` throws at `setAttribute`: the store and the
address already hold `es`, the document language is still `en` and no entry is
marked. -/
theorem switchTo_switcher_counterexample :
    "es" ∈ LANGUAGES.map (fun l => l.code) ∧ "es" ≠ staleMenuPage.currentLang ∧
      "es" ≠ badNamePage.currentLang ∧
      selectedCodes (switchTo sampleHost onlyDefault "es" staleMenuPage).state = ["en"] ∧
      getItem (switchTo sampleHost bothResources "es" badNamePage).state.localStorage
        STORAGE_KEY = some "es" ∧
      getAttribute (switchTo sampleHost bothResources "es" badNamePage).state.document.root
        "lang" = some "en" ∧
      selectedCodes (switchTo sampleHost bothResources "es" badNamePage).state = [] := by
  unfold switchTo
  simp only [load_unfold]
  decide

/-- C7, amended. For a configured code `c` other than the active language,
`switchTo(c)` leaves `c` in the store under `kalenex-lang`, the `lang` parameter
at `c` when `c` is not the default and no `lang` parameter when it is, and the
other parameters as they were, whether or not the call returns. When the call
returns (that is, when `apply` does not throw), the document language is `c`; on
a page that has the switcher menu and label, the menu then marks the entry of
`c` and no other as selected. -/
theorem switchTo_effects (host : Host) (fetch : Fetch) (c : String) (s : Page)
    (hc : c ∈ LANGUAGES.map (fun l => l.code)) (hne : c ≠ s.currentLang) :
    getItem (switchTo host fetch c s).state.localStorage STORAGE_KEY = some c ∧
      (c ≠ DEFAULT_LANG →
        URLSearchParams.get (switchTo host fetch c s).state.search "lang" = some c) ∧
      (c = DEFAULT_LANG →
        URLSearchParams.get (switchTo host fetch c s).state.search "lang" = none ∧
          ∀ p ∈ (switchTo host fetch c s).state.search, p.1 ≠ "lang") ∧
      (switchTo host fetch c s).state.search.filter (fun p => p.1 != "lang") =
        s.search.filter (fun p => p.1 != "lang") ∧
      (∀ t : Page, switchTo host fetch c s = Outcome.returned t →
        getAttribute t.document.root "lang" = some c ∧
          ∀ (menu : List MenuItem) (label : String),
            s.document.langMenu = some menu → s.document.langCurrent = some label →
              selectedCodes t = [c]) := by
  unfold switchTo
  rw [if_neg hne]
  simp only [applyAndBuild_localStorage, applyAndBuild_search]
  refine ⟨getItem_setItem _ _ _, ?_, ?_, ?_, ?_⟩
  · intro hd
    rw [if_neg hd, get_set]
  · intro hd
    rw [if_pos hd]
    exact get_delete s.search "lang"
  · split
    · exact others_delete s.search "lang"
    · exact others_set s.search "lang" c
  · intro t ht
    obtain ⟨r1, r2⟩ := applyAndBuild_switched host fetch c _ t ht
    refine ⟨r1, ?_⟩
    intro menu label hm hl
    exact (r2 menu label hm hl).trans (selected_rendered c hc)

/-- Switching the fresh page to Spanish: the call returns, and every part of the
statement is read off at the state it returns. -/
theorem switchTo_effects_witness :
    switchTo sampleHost onlyDefault "es" freshPage =
        Outcome.returned (switchTo sampleHost onlyDefault "es" freshPage).state ∧
      getItem (switchTo sampleHost onlyDefault "es" freshPage).state.localStorage STORAGE_KEY
        = some "es" ∧
      URLSearchParams.get (switchTo sampleHost onlyDefault "es" freshPage).state.search "lang"
        = some "es" ∧
      getAttribute (switchTo sampleHost onlyDefault "es" freshPage).state.document.root "lang"
        = some "es" ∧
      selectedCodes (switchTo sampleHost onlyDefault "es" freshPage).state = ["es"] := by
  have h := switchTo_effects sampleHost onlyDefault "es" freshPage (by decide) (by decide)
  have ht : switchTo sampleHost onlyDefault "es" freshPage =
      Outcome.returned (switchTo sampleHost onlyDefault "es" freshPage).state := by
    unfold switchTo
    simp only [load_unfold]
    decide
  have h5 := h.2.2.2.2 _ ht
  exact ⟨ht, h.1, h.2.1 (by decide), h5.1, h5.2 [] "" rfl rfl⟩

/-! ## Rendering the switcher -/

/-- C8. Rendering the switcher twice with the same active language gives the state
that rendering it once gives, whatever the menu held before. Where the menu and
the label are on the page, that state has one entry per configured language, in
configuration order, each with its label, its code and its selected marking, and
the label shows the flag of the active language. -/
theorem buildSwitcher_idempotent (host : Host) (s : Page) :
    buildSwitcher host (buildSwitcher host s) = buildSwitcher host s ∧
      (buildSwitcher host s).currentLang = s.currentLang ∧
      (∀ (menu : List MenuItem) (label : String),
        s.document.langMenu = some menu → s.document.langCurrent = some label →
          (buildSwitcher host s).document.langMenu = some (renderedItems s.currentLang) ∧
          (renderedItems s.currentLang).map (fun item => item.dataLang) =
            LANGUAGES.map (fun l => l.code) ∧
          (renderedItems s.currentLang).map (fun item => item.textContent) =
            LANGUAGES.map (fun l => l.label) ∧
          (∀ item ∈ renderedItems s.currentLang,
            selected item = decide (item.dataLang = s.currentLang)) ∧
          (buildSwitcher host s).document.langCurrent =
            some (match LANGUAGES.find? (fun l => l.code == s.currentLang) with
                  | some a => a.flag
                  | none => host.toUpperCase s.currentLang)) := by
  refine ⟨?_, (buildSwitcher_frame host s).1, ?_⟩
  · cases hm : s.document.langMenu with
    | none => simp [buildSwitcher, hm]
    | some menu =>
      cases hl : s.document.langCurrent with
      | none => simp [buildSwitcher, hm, hl]
      | some label => simp [buildSwitcher, hm, hl]
  · intro menu label hm hl
    obtain ⟨h1, h2⟩ := buildSwitcher_present host s menu label hm hl
    refine ⟨h1, by simp [renderedItems], by simp [renderedItems], ?_, h2⟩
    intro item hitem
    simp only [renderedItems, LANGUAGES, List.map_cons, List.map_nil, List.mem_cons,
      List.mem_nil_iff, or_false] at hitem
    rcases hitem with rfl | rfl
    · by_cases h : "en" = s.currentLang
      · rw [← h]; decide
      · simp only [h, if_false, decide_False]; decide
    · by_cases h : "es" = s.currentLang
      · rw [← h]; decide
      · simp only [h, if_false, decide_False]; decide

/-- Rendering over the authored menu of `staleMenuPage` once the label is there. -/
theorem buildSwitcher_idempotent_witness :
    (buildSwitcher sampleHost
        { staleMenuPage with
          document := { staleMenuPage.document with langCurrent := some "??" } }).document.langMenu
      = some (renderedItems "en") :=
  ((buildSwitcher_idempotent sampleHost
    { staleMenuPage with
      document := { staleMenuPage.document with langCurrent := some "??" } }).2.2
    [{ className := "lang-switcher__item lang-switcher__item--active",
       textContent := "English", dataLang := "en", onClick := "en" }] "??" rfl rfl).1

/-! ## The preference store -/

theorem init_localStorage (host : Host) (fetch : Fetch) (s : Page) :
    (init host fetch s).state.localStorage = s.localStorage := by
  unfold init
  exact applyAndBuild_localStorage host fetch _ _

theorem init_trace (host : Host) (fetch : Fetch) (s : Page) :
    ∃ urls : List String, (init host fetch s).state.trace = s.trace ++ urls.map Effect.fetch := by
  unfold init
  exact applyAndBuild_trace host fetch _ _

theorem switchTo_localStorage (host : Host) (fetch : Fetch) (c : String) (s : Page)
    (hne : c ≠ s.currentLang) :
    getItem (switchTo host fetch c s).state.localStorage STORAGE_KEY = some c := by
  unfold switchTo
  rw [if_neg hne]
  simp only [applyAndBuild_localStorage]
  exact getItem_setItem _ _ _

theorem switchAll_store (host : Host) (calls : List (Fetch × String)) (s : Page) :
    ((switchAll host calls s).localStorage = s.localStorage ∧
        (switchAll host calls s).currentLang = s.currentLang) ∨
      getItem (switchAll host calls s).localStorage STORAGE_KEY =
        some (switchAll host calls s).currentLang := by
  induction calls generalizing s with
  | nil => exact Or.inl ⟨rfl, rfl⟩
  | cons call rest ih =>
    simp only [switchAll, List.foldl_cons]
    by_cases hc : call.2 = s.currentLang
    · have e : switchTo host call.1 call.2 s = Outcome.returned s := by
        simp [switchTo, hc]
      rw [e]
      exact ih s
    · have hstore := switchTo_localStorage host call.1 call.2 s hc
      have hcur := switchTo_currentLang host call.1 call.2 s
      rcases ih (switchTo host call.1 call.2 s).state with ⟨h1, h2⟩ | h
      · right
        show getItem (switchAll host rest _).localStorage STORAGE_KEY =
          some (switchAll host rest _).currentLang
        rw [h1, h2, hstore, hcur]
      · exact Or.inr h

/-- C9, as stated, fails: on a fresh page with a Spanish browser and an empty store,
`init` resolves `es` and the store still holds nothing under `kalenex-lang`; it
still holds nothing after the visitor then picks Spanish in the switcher. -/
theorem init_store_counterexample :
    (init sampleHost onlyDefault freshPage).state.currentLang = "es" ∧
      getItem (init sampleHost onlyDefault freshPage).state.localStorage STORAGE_KEY = none ∧
      getItem (switchAll sampleHost [(onlyDefault, "es")]
        (init sampleHost onlyDefault freshPage).state).localStorage STORAGE_KEY = none := by
  have hc : (init sampleHost onlyDefault freshPage).state.currentLang = "es" :=
    (init_currentLang sampleHost onlyDefault freshPage).trans (by decide)
  have hs : getItem (init sampleHost onlyDefault freshPage).state.localStorage STORAGE_KEY
      = none :=
    (congrArg (fun st => getItem st STORAGE_KEY)
      (init_localStorage sampleHost onlyDefault freshPage)).trans (by decide)
  refine ⟨hc, hs, ?_⟩
  have e : switchTo sampleHost onlyDefault "es" (init sampleHost onlyDefault freshPage).state
      = Outcome.returned (init sampleHost onlyDefault freshPage).state := by
    unfold switchTo
    rw [if_pos hc.symm]
  simp only [switchAll, List.foldl_cons, List.foldl_nil]
  rw [e]
  exact hs

/-- C9, amended. The function `init` leaves the store as it found it and issues
nothing but resource requests, so after `init` the stored value is the resolved
language exactly when it was so before. After `init` and any sequence of
`switchTo` calls, either no call has changed the active language and the store
is still as it was before `init`, or the value under `kalenex-lang` is the
active language. -/
theorem init_keeps_store (host : Host) (fetch : Fetch) (s : Page)
    (calls : List (Fetch × String)) :
    (init host fetch s).state.localStorage = s.localStorage ∧
      (∃ urls : List String,
        (init host fetch s).state.trace = s.trace ++ urls.map Effect.fetch) ∧
      (getItem (init host fetch s).state.localStorage STORAGE_KEY =
          some (init host fetch s).state.currentLang ↔
        getItem s.localStorage STORAGE_KEY =
          some (detectLanguage s.search s.localStorage s.navigator)) ∧
      (((switchAll host calls (init host fetch s).state).localStorage = s.localStorage ∧
          (switchAll host calls (init host fetch s).state).currentLang =
            detectLanguage s.search s.localStorage s.navigator) ∨
        getItem (switchAll host calls (init host fetch s).state).localStorage STORAGE_KEY =
          some (switchAll host calls (init host fetch s).state).currentLang) := by
  refine ⟨init_localStorage host fetch s, init_trace host fetch s, ?_, ?_⟩
  · rw [init_localStorage, init_currentLang]
  · rcases switchAll_store host calls (init host fetch s).state with ⟨h1, h2⟩ | h
    · left
      exact ⟨h1.trans (init_localStorage host fetch s), h2.trans (init_currentLang host fetch s)⟩
    · exact Or.inr h

/-- Choosing English, then Spanish, after `init` resolved Spanish on the fresh page:
the store holds the active language. -/
theorem init_keeps_store_witness :
    getItem (switchAll sampleHost [(onlyDefault, "en"), (onlyDefault, "es")]
        (init sampleHost onlyDefault freshPage).state).localStorage STORAGE_KEY =
      some (switchAll sampleHost [(onlyDefault, "en"), (onlyDefault, "es")]
        (init sampleHost onlyDefault freshPage).state).currentLang := by
  rcases (init_keeps_store sampleHost onlyDefault freshPage
    [(onlyDefault, "en"), (onlyDefault, "es")]).2.2.2 with ⟨h1, _⟩ | h
  · exfalso
    have hs : getItem (switchAll sampleHost [(onlyDefault, "en"), (onlyDefault, "es")]
        (init sampleHost onlyDefault freshPage).state).localStorage STORAGE_KEY = some "es" :=
      switchTo_localStorage sampleHost onlyDefault "es" _
        (by rw [switchTo_currentLang]; decide)
    rw [h1] at hs
    exact absurd hs (by decide)
  · exact h

/-! ## Substitution in the document -/

/-- C5 at the failing input: the map is empty, so the key `constructor` of the text
marker is absent from it, and `apply` returns with the paragraph's text
replaced by the member inherited from `Object.prototype`. -/
theorem apply_inherited_key_overwrites :
    inheritedKeyPage.translations = Translations.object [] ∧
      inheritedKeyPage.document.elements =
        [{ attributes := [("data-i18n", "constructor")], content := Content.text "Keep me" }] ∧
      (apply sampleHost inheritedKeyPage).state.document.elements =
        [{ attributes := [("data-i18n", "constructor")],
           content := Content.text "function Object() \x7b [native code] \x7d" }] := by
  decide

/-! ## Theme toggle -/

theorem truthy_getPreferredTheme (storage : Storage) (prefersDark : Bool) :
    truthy (getPreferredTheme storage prefersDark) = true := by
  unfold getPreferredTheme
  cases h : (getItem storage THEME_KEY).filter truthy with
  | some stored =>
    cases hg : getItem storage THEME_KEY with
    | none => rw [hg] at h; simp at h
    | some v =>
      rw [hg] at h
      simp [Option.filter] at h
      obtain ⟨h1, h2⟩ := h
      simpa [← h2] using h1
  | none => cases prefersDark <;> decide

/-- After the script has started, the `change` listener of the colour-scheme query
does nothing, whatever the store held before and whatever the new value is. -/
theorem onSchemeChange_after_start (s : ThemePage) (prefersDark isDark : Bool) :
    onSchemeChange isDark (startTheme prefersDark s) = startTheme prefersDark s := by
  unfold onSchemeChange startTheme applyTheme
  simp only [getItem_setItem, Option.filter, truthy_getPreferredTheme]
  rfl

/-- C10 at the failing input: a page started with an empty store under a light OS
scheme keeps `data-theme` at `light` when the OS scheme changes to dark. -/
theorem scheme_change_ignored :
    (startTheme false { dataTheme := none, localStorage := [] }).dataTheme = some "light" ∧
      (onSchemeChange true (startTheme false { dataTheme := none, localStorage := [] })).dataTheme
        = some "light" := by
  decide

end Kalenex
